import Mathlib

/-!
Shallow embedding of the SonnyVenueSite booking engine.

Source files embedded:
  - src/lib/time.ts        (enumerateDates, monthBounds)
  - src/lib/pricing.ts     (quoteRange, computeDeposit)
  - src/app/api/holds/route.ts           (POST: create hold)
  - src/app/api/availability/route.ts    (GET/POST availability, cancel route)
  - src/app/api/stripe/webhook/route.ts  (POST: webhook dispatch)
  - src/workers/index.ts   (handleHoldExpire)
  - src/lib/queue.ts       (enqueue with BullMQ jobId dedup)

Conventions:
  - Calendar dates are year/month/day triples.  `Ymd.rank` is a monotone
    encoding of chronological order for valid dates (372*y + 31*m + d);
    all date comparisons in the source (Date / luxon DateTime comparisons
    on date-only values) are modelled as comparisons of ranks.
  - Timestamps are natural numbers of milliseconds; the timestamp of the
    midnight of a date is `rank * msPerDay` on the same monotone clock.
  - Money amounts are integers of cents (JS numbers restricted to the
    integer arithmetic actually performed by the source).
  - Each HTTP handler or worker is a pure function taking the database
    state (and the current time) and returning the new state plus the
    response.  A prisma `$transaction` whose body throws is modelled as
    returning the ORIGINAL state (rollback).
  - BullMQ jobIds of the form "label:bookingId" are modelled as the pair
    (label, bookingId); `enqueue` with an existing jobId is a no-op,
    mirroring BullMQ dedup on jobId for pending jobs.
-/

/-- Days in a month of the proleptic Gregorian calendar (luxon's calendar). -/
def daysInMonth (y m : Nat) : Nat :=
  if m = 2 then (if (y % 4 = 0 ∧ y % 100 ≠ 0) ∨ y % 400 = 0 then 29 else 28)
  else if m = 4 ∨ m = 6 ∨ m = 9 ∨ m = 11 then 30 else 31

/-- A calendar date (year, month 1-12, day 1-31). -/
structure Ymd where
  year : Nat
  month : Nat
  day : Nat
deriving DecidableEq, Repr

/-- Monotone encoding of chronological order on valid dates. -/
def Ymd.rank (d : Ymd) : Nat := 372 * d.year + 31 * d.month + d.day

/-- Loose validity: month in 1..12 and day in 1..31. -/
def Ymd.valid (d : Ymd) : Prop :=
  1 ≤ d.month ∧ d.month ≤ 12 ∧ 1 ≤ d.day ∧ d.day ≤ 31

instance (d : Ymd) : Decidable d.valid := by
  unfold Ymd.valid; infer_instance

/-- A real proleptic-Gregorian calendar date: the day exists in its month. -/
def Ymd.realDate (d : Ymd) : Prop :=
  1 ≤ d.month ∧ d.month ≤ 12 ∧ 1 ≤ d.day ∧ d.day ≤ daysInMonth d.year d.month

instance (d : Ymd) : Decidable d.realDate := by
  unfold Ymd.realDate; infer_instance

/-- The next calendar day (luxon `plus one day` on a date-only value). -/
def Ymd.nextDay (d : Ymd) : Ymd :=
  if d.day < daysInMonth d.year d.month then ⟨d.year, d.month, d.day + 1⟩
  else if d.month < 12 then ⟨d.year, d.month + 1, 1⟩
  else ⟨d.year + 1, 1, 1⟩

/-- Fuel-bounded loop body of `enumerateDates` from src/lib/time.ts:
while cur is before stop, push cur and advance one day. -/
def enumAux : Nat → Ymd → Ymd → List Ymd
  | 0, _, _ => []
  | Nat.succ n, cur, stop =>
    if cur.rank < stop.rank then cur :: enumAux n cur.nextDay stop else []

/-- enumerateDates from src/lib/time.ts: all dates from start (inclusive)
to end (exclusive).  The fuel `stop.rank - start.rank` bounds the number
of iterations of the source's while loop, since each day step strictly
increases the rank. -/
def enumerateDates (startInclusive endExclusive : Ymd) : List Ymd :=
  enumAux (endExclusive.rank - startInclusive.rank) startInclusive endExclusive

/-- monthBounds from src/lib/time.ts: first day of the month and first day
of the following month (exclusive end). -/
def monthBounds (year month : Nat) : Ymd × Ymd :=
  (⟨year, month, 1⟩, if month < 12 then ⟨year, month + 1, 1⟩ else ⟨year + 1, 1, 1⟩)

def msPerMinute : Nat := 60000
def msPerHour : Nat := 3600000
def msPerDay : Nat := 86400000

/-! Data model, mirroring the Prisma entities used by the handlers. -/

inductive DayStatus | HELD | BOOKED
deriving DecidableEq, Repr

inductive BookingStatus | HELD | CONFIRMED | CANCELLED | REFUNDED
deriving DecidableEq, Repr

inductive PayType | DEPOSIT | REMAINDER
deriving DecidableEq, Repr

inductive PayStatus | pending | succeeded | failed
deriving DecidableEq, Repr

inductive DepositType | FIXED | PERCENT
deriving DecidableEq, Repr

/-- A BookedDay row: the per-date occupancy cell (unique on `day`). -/
structure BookedDay where
  bookingId : String
  day : Ymd
  status : DayStatus
  holdExpiresAt : Option Nat
deriving DecidableEq, Repr

/-- A Booking row. -/
structure Booking where
  id : String
  customerEmail : String
  startDate : Ymd
  endDateExclusive : Ymd
  status : BookingStatus
  depositAmount : Int
  totalAmount : Int
  stripeCustomerId : Option String
deriving DecidableEq, Repr

/-- A Payment row (unique on stripePaymentIntentId). -/
structure Payment where
  bookingId : String
  stripePaymentIntentId : String
  amount : Int
  type : PayType
  status : PayStatus
deriving DecidableEq, Repr

/-- A Refund row. -/
structure Refund where
  bookingId : String
  stripeRefundId : String
  amount : Int
deriving DecidableEq, Repr

/-- A scheduled BullMQ job.  The source jobId string "label:bookingId" is
modelled as the pair (label, id-part). -/
structure Job where
  name : String
  payloadBookingId : String
  template : Option String
  delayMs : Nat
  jobId : String × String
deriving DecidableEq, Repr

/-- Booking policy row (src/lib/policy.ts). -/
structure Policy where
  depositType : DepositType
  depositValue : Int
  remainderDaysBeforeStart : Nat
  cancelCutoffHours : Nat
deriving DecidableEq, Repr

/-- Default policy created by getOrCreateDefaultPolicy (src/lib/policy.ts). -/
def defaultPolicy : Policy :=
  { depositType := DepositType.FIXED, depositValue := 20000,
    remainderDaysBeforeStart := 14, cancelCutoffHours := 48 }

/-- The whole persistent state: database tables plus the pending job queue. -/
structure DB where
  bookedDays : List BookedDay
  bookings : List Booking
  blackouts : List Ymd
  payments : List Payment
  refunds : List Refund
  jobs : List Job
  customers : List String
deriving DecidableEq, Repr

def emptyDB : DB :=
  { bookedDays := [], bookings := [], blackouts := [], payments := [],
    refunds := [], jobs := [], customers := [] }

/-! Pricing (src/lib/pricing.ts). -/

/-- Quote for a range (quoteRange): day count, per-day price, total. -/
structure Quote where
  days : Nat
  perDay : Int
  total : Int
deriving DecidableEq, Repr

/-- quoteRange from src/lib/pricing.ts. -/
def quoteRange (startDate endDateExclusive : Ymd) (perDay : Int) : Quote :=
  let days := (enumerateDates startDate endDateExclusive).length
  { days := days, perDay := perDay, total := (days : Int) * perDay }

/-- computeDeposit from src/lib/pricing.ts.  `Math.round` of the
nonnegative exact value total*value/100 is floor((total*value + 50)/100). -/
def computeDeposit (total : Int) (depositType : DepositType) (value : Int) : Int :=
  match depositType with
  | DepositType.FIXED => min value total
  | DepositType.PERCENT => min ((total * value + 50).ediv 100) total

/-! Queue (src/lib/queue.ts): enqueue with BullMQ jobId dedup. -/

/-- Adding a job whose jobId is already pending is a no-op. -/
def enqueue (jobs : List Job) (j : Job) : List Job :=
  if jobs.any (fun k => decide (k.jobId = j.jobId)) then jobs else jobs ++ [j]

/-! Shared database helpers mirroring prisma calls. -/

/-- Prisma `payment.upsert` keyed by stripePaymentIntentId: update the
matching row if one exists, otherwise insert `created`. -/
def upsertPayment (ps : List Payment) (pi : String) (upd : Payment → Payment)
    (created : Payment) : List Payment :=
  if ps.any (fun p => decide (p.stripePaymentIntentId = pi)) then
    ps.map (fun p => if p.stripePaymentIntentId = pi then upd p else p)
  else ps ++ [created]

/-- The deleteMany filter of the hold route's garbage collection:
a HELD day whose holdExpiresAt has passed (strictly before now). -/
def isExpiredHeld (now : Nat) (d : BookedDay) : Bool :=
  decide (d.status = DayStatus.HELD) &&
    (match d.holdExpiresAt with
     | some t => decide (t < now)
     | none => false)

/-- Blackout lookup of the hold route: any blackout day in [start, end). -/
def blackoutIntersects (blackouts : List Ymd) (startDate endDateExclusive : Ymd) : Bool :=
  blackouts.any (fun b =>
    decide (startDate.rank ≤ b.rank ∧ b.rank < endDateExclusive.rank))

/-- Prisma `bookedDay.createMany` with skipDuplicates under the unique
constraint on `day`: insert one HELD row per date unless a row with that
date already exists; return the rows and the number actually inserted. -/
def createManySkipDup (days : List BookedDay) (bid : String) (expiry : Nat) :
    List Ymd → List BookedDay × Nat
  | [] => (days, 0)
  | d :: rest =>
    if days.any (fun u => decide (u.day = d)) then
      createManySkipDup days bid expiry rest
    else
      let r := createManySkipDup
        (days ++ [{ bookingId := bid, day := d, status := DayStatus.HELD,
                    holdExpiresAt := some expiry }]) bid expiry rest
      (r.1, r.2 + 1)

/-! Hold creation: POST of src/app/api/holds/route.ts. -/

inductive HoldError
  | emptyRange
  | blackoutConflict
  | rangeUnavailable
deriving DecidableEq, Repr

/-- The transaction body of the hold route.  A thrown error aborts the
whole transaction (the caller rolls back to the original state). -/
def holdsTx (db : DB) (now : Nat) (startDate endDateExclusive : Ymd)
    (email : String) (daysList : List Ymd) (holdExpiresAt : Nat)
    (perDay : Int) (policy : Policy) (newBookingId : String) :
    Except HoldError DB :=
  let afterGc := db.bookedDays.filter (fun d => !(isExpiredHeld now d))
  if blackoutIntersects db.blackouts startDate endDateExclusive then
    Except.error HoldError.blackoutConflict
  else
    let q := quoteRange startDate endDateExclusive perDay
    let deposit := computeDeposit q.total policy.depositType policy.depositValue
    let customers :=
      if db.customers.any (fun c => decide (c = email)) then db.customers
      else db.customers ++ [email]
    let booking : Booking :=
      { id := newBookingId, customerEmail := email, startDate := startDate,
        endDateExclusive := endDateExclusive, status := BookingStatus.HELD,
        depositAmount := deposit, totalAmount := q.total, stripeCustomerId := none }
    let ins := createManySkipDup afterGc newBookingId holdExpiresAt daysList
    if ins.2 ≠ daysList.length then Except.error HoldError.rangeUnavailable
    else Except.ok { db with
      bookedDays := ins.1,
      bookings := db.bookings ++ [booking],
      customers := customers }

/-- POST /api/holds.  On success the hold-expire job is enqueued after
commit; on a thrown error the transaction rolls back and a 409 with the
error is returned. -/
def holdsPOST (db : DB) (now : Nat) (startDate endDateExclusive : Ymd)
    (email : String) (ttlMinutes : Nat) (perDay : Int) (policy : Policy)
    (newBookingId : String) : DB × Except HoldError String :=
  let daysList := enumerateDates startDate endDateExclusive
  if daysList.length = 0 then (db, Except.error HoldError.emptyRange)
  else
    let holdExpiresAt := now + ttlMinutes * msPerMinute
    match holdsTx db now startDate endDateExclusive email daysList
        holdExpiresAt perDay policy newBookingId with
    | Except.error e => (db, Except.error e)
    | Except.ok db1 =>
      let expireJob : Job :=
        { name := "hold-expire", payloadBookingId := newBookingId,
          template := none, delayMs := ttlMinutes * msPerMinute,
          jobId := ("hold-expire", newBookingId) }
      ({ db1 with jobs := enqueue db1.jobs expireJob }, Except.ok newBookingId)

/-! Stripe webhook: POST of src/app/api/stripe/webhook/route.ts. -/

/-- Transaction body of the checkout.session.completed handler: upsert the
deposit PaymentRecord keyed by the payment-intent id; if the booking is
already CONFIRMED stop (idempotent); otherwise convert HELD days to BOOKED
and set the booking CONFIRMED. -/
def confirmTx (db : DB) (bookingId pi : String) (customerId : Option String) : DB :=
  match db.bookings.find? (fun b => decide (b.id = bookingId)) with
  | none => db
  | some booking =>
    let payments := upsertPayment db.payments pi
      (fun p => { p with status := PayStatus.succeeded })
      { bookingId := bookingId, stripePaymentIntentId := pi,
        amount := booking.depositAmount, type := PayType.DEPOSIT,
        status := PayStatus.succeeded }
    let db1 := { db with payments := payments }
    if booking.status = BookingStatus.CONFIRMED then db1
    else
      { db1 with
        bookedDays := db1.bookedDays.map (fun d =>
          if d.bookingId = bookingId ∧ d.status = DayStatus.HELD then
            { d with status := DayStatus.BOOKED, holdExpiresAt := none }
          else d),
        bookings := db1.bookings.map (fun b =>
          if b.id = bookingId then
            let cust := match customerId with
              | some c => some c
              | none => b.stripeCustomerId
            { b with status := BookingStatus.CONFIRMED, stripeCustomerId := cust }
          else b) }

/-- Post-commit scheduling block of checkout.session.completed: enqueue the
remainder-charge job and the four reminder jobs, each keyed by bookingId. -/
def scheduleAfterConfirm (db : DB) (now : Nat) (bookingId : String)
    (policy : Policy) : DB :=
  match db.bookings.find? (fun b => decide (b.id = bookingId)) with
  | none => db
  | some booking =>
    let startMs := booking.startDate.rank * msPerDay
    let chargeDelay :=
      (startMs - policy.remainderDaysBeforeStart * msPerDay + 10 * msPerHour) - now
    let chargeJob : Job :=
      { name := "remainder-charge", payloadBookingId := bookingId,
        template := none, delayMs := chargeDelay,
        jobId := ("remainder-charge", bookingId) }
    let db1 := { db with jobs := enqueue db.jobs chargeJob }
    [14, 7, 2, 1].foldl (fun acc d =>
      let reminderJob : Job :=
        { name := "reminder-email", payloadBookingId := bookingId,
          template := some ("reminder-" ++ toString d ++ "d"),
          delayMs := (startMs - d * msPerDay + 9 * msPerHour) - now,
          jobId := ("reminder-" ++ toString d ++ "d", bookingId) }
      { acc with jobs := enqueue acc.jobs reminderJob }) db1

/-- The whole checkout.session.completed handler. -/
def checkoutCompleted (db : DB) (now : Nat) (bookingId pi : String)
    (customerId : Option String) (policy : Policy) : DB :=
  scheduleAfterConfirm (confirmTx db bookingId pi customerId) now bookingId policy

/-- payment_intent.succeeded handler: idempotent upsert of the payment. -/
def paymentSucceeded (db : DB) (bookingId pi : String) (amount : Int)
    (ptype : PayType) : DB :=
  let created : Payment :=
    { bookingId := bookingId, stripePaymentIntentId := pi, amount := amount,
      type := ptype, status := PayStatus.succeeded }
  let upd : Payment → Payment := fun p => { p with status := PayStatus.succeeded }
  { db with payments := upsertPayment db.payments pi upd created }

/-- Count of failed REMAINDER payments of a booking (the retry counter). -/
def countFailedRemainder (ps : List Payment) (bookingId : String) : Nat :=
  ps.countP (fun p => decide (p.bookingId = bookingId ∧
    p.type = PayType.REMAINDER ∧ p.status = PayStatus.failed))

/-- payment_intent.payment_failed handler: record the failure, then retry
the remainder charge with backoff while fewer than 3 failures exist. -/
def paymentFailed (db : DB) (bookingId pi : String) (amount : Int)
    (ptype : PayType) : DB :=
  let created : Payment :=
    { bookingId := bookingId, stripePaymentIntentId := pi, amount := amount,
      type := ptype, status := PayStatus.failed }
  let upd : Payment → Payment := fun p => { p with status := PayStatus.failed }
  let db1 := { db with payments := upsertPayment db.payments pi upd created }
  let failures := countFailedRemainder db1.payments bookingId
  if failures < 3 then
    let retryJob : Job :=
      { name := "remainder-charge", payloadBookingId := bookingId,
        template := none,
        delayMs := if failures = 1 then 6 * msPerHour else 24 * msPerHour,
        jobId := ("remainder-charge-retry" ++ toString failures, bookingId) }
    { db1 with jobs := enqueue db1.jobs retryJob }
  else db1

/-- A verified Stripe event, as the webhook switch dispatches it. -/
inductive StripeEvent where
  | checkoutSessionCompleted (bookingId pi : String) (customerId : Option String)
  | paymentIntentSucceeded (bookingId : Option String) (pi : String)
      (amount : Int) (ptype : PayType)
  | paymentIntentFailed (bookingId : Option String) (pi : String)
      (amount : Int) (ptype : PayType)
  | otherEvent
deriving DecidableEq

/-- The switch over event.type in the webhook handler. -/
def dispatchEvent (db : DB) (now : Nat) (policy : Policy) : StripeEvent → DB
  | StripeEvent.checkoutSessionCompleted bid pi cust =>
      checkoutCompleted db now bid pi cust policy
  | StripeEvent.paymentIntentSucceeded none _ _ _ => db
  | StripeEvent.paymentIntentSucceeded (some bid) pi amount t =>
      paymentSucceeded db bid pi amount t
  | StripeEvent.paymentIntentFailed none _ _ _ => db
  | StripeEvent.paymentIntentFailed (some bid) pi amount t =>
      paymentFailed db bid pi amount t
  | StripeEvent.otherEvent => db

/-- POST /api/stripe/webhook.  `verifiedEvent` is the outcome of
stripe.webhooks.constructEvent: `none` when signature verification throws.
Returns the new state and the HTTP status. -/
def webhookPOST (db : DB) (now : Nat) (policy : Policy) (hasSignature : Bool)
    (hasSecret : Bool) (verifiedEvent : Option StripeEvent) : DB × Nat :=
  if !hasSignature then (db, 400)
  else if !hasSecret then (db, 500)
  else match verifiedEvent with
    | none => (db, 400)
    | some ev => (dispatchEvent db now policy ev, 200)

/-! Hold expiry worker: handleHoldExpire of src/workers/index.ts. -/

/-- handleHoldExpire: a transaction that cancels a HELD booking and frees
its days, but only when no owned day still has a future holdExpiresAt. -/
def handleHoldExpire (db : DB) (now : Nat) (bookingId : String) : DB :=
  match db.bookings.find? (fun b => decide (b.id = bookingId)) with
  | none => db
  | some booking =>
    if booking.status ≠ BookingStatus.HELD then db
    else
      let days := db.bookedDays.filter (fun d => decide (d.bookingId = bookingId))
      if days.any (fun d => decide (d.status = DayStatus.HELD) &&
          (match d.holdExpiresAt with
           | some t => decide (now < t)
           | none => false)) then db
      else
        { db with
          bookedDays := db.bookedDays.filter (fun d =>
            !(decide (d.bookingId = bookingId ∧ d.status = DayStatus.HELD))),
          bookings := db.bookings.map (fun b =>
            if b.id = bookingId then { b with status := BookingStatus.CANCELLED }
            else b) }

/-! Availability: GET/POST of src/app/api/availability/route.ts. -/

/-- The per-row test of the availability handlers: BOOKED, or HELD with a
strictly future holdExpiresAt. -/
def isUnavailableDayUnit (now : Nat) (d : BookedDay) : Bool :=
  decide (d.status = DayStatus.BOOKED) ||
    (decide (d.status = DayStatus.HELD) &&
      (match d.holdExpiresAt with
       | some t => decide (now < t)
       | none => false))

/-- GET /api/availability: unavailable dates of a month — booked days,
unexpired holds, and blackouts.  Performs no writes (pure query). -/
def availabilityGET (db : DB) (now : Nat) (year month : Nat) : List Ymd :=
  let b := monthBounds year month
  let days := db.bookedDays.filter (fun d =>
    decide (b.1.rank ≤ d.day.rank ∧ d.day.rank < b.2.rank))
  let blackoutDays := db.blackouts.filter (fun d =>
    decide (b.1.rank ≤ d.rank ∧ d.rank < b.2.rank))
  (days.filter (isUnavailableDayUnit now)).map (fun d => d.day) ++ blackoutDays

/-- POST /api/availability: is the requested range free (ignoring expired
holds)?  Returns ok plus the conflict list. -/
def availabilityPOST (db : DB) (now : Nat) (startDate endDateExclusive : Ymd) :
    Bool × List Ymd :=
  let conflicts := db.bookedDays.filter (fun d =>
    decide (startDate.rank ≤ d.day.rank ∧ d.day.rank < endDateExclusive.rank) &&
      isUnavailableDayUnit now d)
  let blackoutDays := db.blackouts.filter (fun d =>
    decide (startDate.rank ≤ d.rank ∧ d.rank < endDateExclusive.rank))
  if conflicts.length > 0 ∨ blackoutDays.length > 0 then
    (false, conflicts.map (fun d => d.day) ++ blackoutDays)
  else (true, [])

/-! Cancellation: the cancel route (POST /api/bookings/[bookingId]/cancel). -/

inductive CancelError
  | notFound
  | notConfirmed
  | windowClosed
deriving DecidableEq, Repr

/-- The refund loop of the cancel route: walk the succeeded REMAINDER
payments, refunding from each until `refundable` is exhausted; returns the
created Refund rows and the total refunded. -/
def refundLoop (bookingId : String) (refundable : Int) :
    List Payment → Int → List Refund × Int
  | [], refunded => ([], refunded)
  | p :: rest, refunded =>
    if refunded ≥ refundable then ([], refunded)
    else
      let toRefund := min (refundable - refunded) p.amount
      let r := refundLoop bookingId refundable rest (refunded + toRefund)
      ({ bookingId := bookingId,
         stripeRefundId := "re:" ++ p.stripePaymentIntentId,
         amount := toRefund } :: r.1, r.2)

/-- Sum of amounts of a payment list (the reduce over succeeded payments). -/
def sumAmounts (ps : List Payment) : Int :=
  ps.foldl (fun s p => s + p.amount) 0

/-- POST /api/bookings/[bookingId]/cancel: only CONFIRMED bookings, only
inside the cutoff window; refundable = max(0, paid − deposit); refunds are
issued against succeeded REMAINDER payments; days are deleted and the
booking becomes CANCELLED.  Returns the refunded total. -/
def cancelPOST (db : DB) (now : Nat) (bookingId : String) (policy : Policy) :
    DB × Except CancelError Int :=
  match db.bookings.find? (fun b => decide (b.id = bookingId)) with
  | none => (db, Except.error CancelError.notFound)
  | some booking =>
    if booking.status ≠ BookingStatus.CONFIRMED then
      (db, Except.error CancelError.notConfirmed)
    else
      let cutoff := booking.startDate.rank * msPerDay -
        policy.cancelCutoffHours * msPerHour
      if now > cutoff then (db, Except.error CancelError.windowClosed)
      else
        let bps := db.payments.filter (fun p => decide (p.bookingId = bookingId))
        let paid := sumAmounts (bps.filter (fun p =>
          decide (p.status = PayStatus.succeeded)))
        let refundable := max 0 (paid - booking.depositAmount)
        let remainderPayments := bps.filter (fun p =>
          decide (p.type = PayType.REMAINDER ∧ p.status = PayStatus.succeeded))
        let rl := if refundable > 0 then
            refundLoop bookingId refundable remainderPayments 0
          else ([], 0)
        ({ db with
           refunds := db.refunds ++ rl.1,
           bookedDays := db.bookedDays.filter (fun d =>
             !(decide (d.bookingId = bookingId))),
           bookings := db.bookings.map (fun b =>
             if b.id = bookingId then { b with status := BookingStatus.CANCELLED }
             else b) },
         Except.ok rl.2)

/-- The per-date mutual-exclusion invariant: at most one BookedDay row per
calendar date (every row is HELD or BOOKED). -/
def daysUnique (db : DB) : Prop :=
  (db.bookedDays.map (fun d => d.day)).Nodup

/-- The HELD BookedDay row inserted by the hold route for one date. -/
def heldDayRec (bid : String) (d : Ymd) (expiry : Nat) : BookedDay :=
  { bookingId := bid, day := d, status := DayStatus.HELD,
    holdExpiresAt := some expiry }

/-- The deposit Payment row created by the checkout.session.completed
handler when the payment-intent id is new. -/
def depositPaymentRec (bid pi : String) (amount : Int) : Payment :=
  { bookingId := bid, stripePaymentIntentId := pi, amount := amount,
    type := PayType.DEPOSIT, status := PayStatus.succeeded }

/-- The failed Payment row created by the payment_intent.payment_failed
handler when the payment-intent id is new. -/
def failedPaymentRec (bid pi : String) (amount : Int) : Payment :=
  { bookingId := bid, stripePaymentIntentId := pi, amount := amount,
    type := PayType.REMAINDER, status := PayStatus.failed }

/-- The retry job scheduled after the n-th remainder failure: backoff 6h
for the first failure, 24h afterwards, keyed uniquely per attempt. -/
def retryJobRec (bid : String) (n : Nat) : Job :=
  { name := "remainder-charge", payloadBookingId := bid, template := none,
    delayMs := if n = 1 then 6 * msPerHour else 24 * msPerHour,
    jobId := ("remainder-charge-retry" ++ toString n, bid) }

/-! Concrete sample states used by witnesses. -/

def sampleBooking : Booking :=
  { id := "bk1", customerEmail := "a@b.c", startDate := ⟨2025, 6, 10⟩,
    endDateExclusive := ⟨2025, 6, 13⟩, status := BookingStatus.HELD,
    depositAmount := 20000, totalAmount := 150000, stripeCustomerId := none }

def heldSampleDB : DB :=
  { emptyDB with
    bookings := [sampleBooking],
    bookedDays :=
      [{ bookingId := "bk1", day := ⟨2025, 6, 10⟩, status := DayStatus.HELD,
         holdExpiresAt := some 900000 },
       { bookingId := "bk1", day := ⟨2025, 6, 11⟩, status := DayStatus.HELD,
         holdExpiresAt := some 900000 },
       { bookingId := "bk1", day := ⟨2025, 6, 12⟩, status := DayStatus.HELD,
         holdExpiresAt := some 900000 }] }

def blackoutSampleDB : DB := { emptyDB with blackouts := [⟨2025, 3, 11⟩] }

def confirmedSampleBooking : Booking :=
  { id := "bk1", customerEmail := "a@b.c", startDate := ⟨2025, 6, 10⟩,
    endDateExclusive := ⟨2025, 6, 13⟩, status := BookingStatus.CONFIRMED,
    depositAmount := 20000, totalAmount := 500000, stripeCustomerId := none }

def cancelSampleDB : DB :=
  { emptyDB with
    bookings := [confirmedSampleBooking],
    payments :=
      [{ bookingId := "bk1", stripePaymentIntentId := "pi_dep", amount := 20000,
         type := PayType.DEPOSIT, status := PayStatus.succeeded },
       { bookingId := "bk1", stripePaymentIntentId := "pi_rem", amount := 480000,
         type := PayType.REMAINDER, status := PayStatus.succeeded }] }

/-! Calendar lemmas. -/

lemma daysInMonth_le_31 (y m : Nat) : daysInMonth y m ≤ 31 := by
  unfold daysInMonth
  split_ifs <;> omega

lemma Ymd.nextDay_valid (d : Ymd) (h : d.valid) : d.nextDay.valid := by
  obtain ⟨h1, h2, h3, h4⟩ := h
  have hd := daysInMonth_le_31 d.year d.month
  unfold Ymd.nextDay
  split_ifs with hlt hm
  · show 1 ≤ d.month ∧ d.month ≤ 12 ∧ 1 ≤ d.day + 1 ∧ d.day + 1 ≤ 31
    omega
  · show 1 ≤ d.month + 1 ∧ d.month + 1 ≤ 12 ∧ 1 ≤ 1 ∧ (1 : Nat) ≤ 31
    omega
  · show 1 ≤ 1 ∧ (1 : Nat) ≤ 12 ∧ 1 ≤ 1 ∧ (1 : Nat) ≤ 31
    omega

lemma Ymd.rank_lt_rank_nextDay (d : Ymd) (h : d.valid) : d.rank < d.nextDay.rank := by
  obtain ⟨h1, h2, h3, h4⟩ := h
  have hd := daysInMonth_le_31 d.year d.month
  unfold Ymd.nextDay
  split_ifs with hlt hm
  · show 372 * d.year + 31 * d.month + d.day <
      372 * d.year + 31 * d.month + (d.day + 1)
    omega
  · show 372 * d.year + 31 * d.month + d.day <
      372 * d.year + 31 * (d.month + 1) + 1
    omega
  · show 372 * d.year + 31 * d.month + d.day <
      372 * (d.year + 1) + 31 * 1 + 1
    omega

lemma enumAux_mem (fuel : Nat) : ∀ (cur stop d : Ymd), cur.valid →
    d ∈ enumAux fuel cur stop → cur.rank ≤ d.rank ∧ d.rank < stop.rank := by
  induction fuel with
  | zero => intro cur stop d _ h; simp [enumAux] at h
  | succ n ih =>
    intro cur stop d hv h
    simp only [enumAux] at h
    by_cases hc : cur.rank < stop.rank
    · rw [if_pos hc] at h
      rcases List.mem_cons.mp h with h1 | h2
      · subst h1; exact ⟨le_refl _, hc⟩
      · have hv2 := Ymd.nextDay_valid cur hv
        have hr := Ymd.rank_lt_rank_nextDay cur hv
        obtain ⟨ha, hb⟩ := ih cur.nextDay stop d hv2 h2
        exact ⟨le_trans (le_of_lt hr) ha, hb⟩
    · rw [if_neg hc] at h
      simp at h
lemma daysInMonth_ge_28 (y m : Nat) : 28 ≤ daysInMonth y m := by
  unfold daysInMonth
  split_ifs <;> omega

lemma Ymd.realDate_valid (d : Ymd) (h : d.realDate) : d.valid := by
  obtain ⟨h1, h2, h3, h4⟩ := h
  exact ⟨h1, h2, h3, le_trans h4 (daysInMonth_le_31 d.year d.month)⟩

lemma Ymd.nextDay_realDate (d : Ymd) (h : d.realDate) : d.nextDay.realDate := by
  obtain ⟨h1, h2, h3, h4⟩ := h
  have h28a := daysInMonth_ge_28 d.year (d.month + 1)
  have h28b := daysInMonth_ge_28 (d.year + 1) 1
  unfold Ymd.nextDay
  split_ifs with hlt hm
  · show 1 ≤ d.month ∧ d.month ≤ 12 ∧ 1 ≤ d.day + 1 ∧
      d.day + 1 ≤ daysInMonth d.year d.month
    exact ⟨h1, h2, by omega, by omega⟩
  · show 1 ≤ d.month + 1 ∧ d.month + 1 ≤ 12 ∧ 1 ≤ 1 ∧
      1 ≤ daysInMonth d.year (d.month + 1)
    exact ⟨by omega, by omega, le_refl 1, by omega⟩
  · show 1 ≤ 1 ∧ (1 : Nat) ≤ 12 ∧ 1 ≤ 1 ∧ 1 ≤ daysInMonth (d.year + 1) 1
    exact ⟨le_refl 1, by norm_num, le_refl 1, by omega⟩

lemma Ymd.ext_components (a b : Ymd) (hy : a.year = b.year)
    (hm : a.month = b.month) (hd : a.day = b.day) : a = b := by
  cases a
  cases b
  simp_all

lemma Ymd.rank_inj_real (a b : Ymd) (ha : a.realDate) (hb : b.realDate)
    (h : a.rank = b.rank) : a = b := by
  obtain ⟨ha1, ha2, ha3, ha4⟩ := ha
  obtain ⟨hb1, hb2, hb3, hb4⟩ := hb
  have ha31 := daysInMonth_le_31 a.year a.month
  have hb31 := daysInMonth_le_31 b.year b.month
  unfold Ymd.rank at h
  exact Ymd.ext_components a b (by omega) (by omega) (by omega)

lemma Ymd.rank_nextDay_le_of_rank_lt (s d : Ymd) (hs : s.realDate)
    (hd : d.realDate) (h : s.rank < d.rank) : s.nextDay.rank ≤ d.rank := by
  obtain ⟨hs1, hs2, hs3, hs4⟩ := hs
  obtain ⟨hd1, hd2, hd3, hd4⟩ := hd
  have hs31 := daysInMonth_le_31 s.year s.month
  have hd31 := daysInMonth_le_31 d.year d.month
  have hs28 := daysInMonth_ge_28 s.year s.month
  have hd28 := daysInMonth_ge_28 d.year d.month
  unfold Ymd.rank at h ⊢
  unfold Ymd.nextDay
  split_ifs with h1 h2
  · show 372 * s.year + 31 * s.month + (s.day + 1) ≤
      372 * d.year + 31 * d.month + d.day
    omega
  · show 372 * s.year + 31 * (s.month + 1) + 1 ≤
      372 * d.year + 31 * d.month + d.day
    by_cases hy : d.year = s.year
    · rw [hy] at h hd4 hd31 hd28 ⊢
      by_cases hm : d.month = s.month
      · rw [hm] at h hd4
        omega
      · omega
    · omega
  · have hm12 : s.month = 12 := by omega
    have hdim : daysInMonth s.year s.month = 31 := by
      rw [hm12]
      norm_num [daysInMonth]
    show 372 * (s.year + 1) + 31 * 1 + 1 ≤
      372 * d.year + 31 * d.month + d.day
    omega

lemma enumAux_real (fuel : Nat) : ∀ (cur stop d : Ymd), cur.realDate →
    d ∈ enumAux fuel cur stop → d.realDate := by
  induction fuel with
  | zero => intro cur stop d _ h; simp [enumAux] at h
  | succ n ih =>
    intro cur stop d hv h
    simp only [enumAux] at h
    by_cases hc : cur.rank < stop.rank
    · rw [if_pos hc] at h
      rcases List.mem_cons.mp h with h1 | h2
      · subst h1
        exact hv
      · exact ih cur.nextDay stop d (Ymd.nextDay_realDate cur hv) h2
    · rw [if_neg hc] at h
      simp at h

lemma enumAux_complete : ∀ (fuel : Nat) (cur stop d : Ymd), cur.realDate →
    d.realDate → cur.rank ≤ d.rank → d.rank < stop.rank →
    stop.rank - cur.rank ≤ fuel → d ∈ enumAux fuel cur stop := by
  intro fuel
  induction fuel with
  | zero =>
    intro cur stop d _ _ hlo hhi hf
    exact absurd hhi (by omega)
  | succ n ih =>
    intro cur stop d hvc hvd hlo hhi hf
    have hc : cur.rank < stop.rank := lt_of_le_of_lt hlo hhi
    simp only [enumAux]
    rw [if_pos hc]
    by_cases he : cur.rank = d.rank
    · have hcd : cur = d := Ymd.rank_inj_real cur d hvc hvd he
      rw [← hcd]
      exact List.mem_cons_self _ _
    · have hlt : cur.rank < d.rank := lt_of_le_of_ne hlo he
      have hnext := Ymd.rank_nextDay_le_of_rank_lt cur d hvc hvd hlt
      have hvn := Ymd.nextDay_realDate cur hvc
      have hinc := Ymd.rank_lt_rank_nextDay cur (Ymd.realDate_valid cur hvc)
      refine List.mem_cons.mpr (Or.inr ?_)
      exact ih cur.nextDay stop d hvn hvd hnext hhi (by omega)

/-- C7: date ranges are half-open and complete.  Every enumerated date
lies at or after the start and strictly before the exclusive end; for
real calendar dates membership in enumerateDates is exactly equivalent
to lying in [start, end), every enumerated date is a real date, and the
concrete range 2025-03-10 to 2025-03-13 enumerates (and a hold on it
reserves, and its quote counts) exactly the three dates 10, 11, 12 —
never the 13th. -/
theorem enumerateDates_half_open_and_reserves_exactly :
    (∀ (s e d : Ymd), s.valid → d ∈ enumerateDates s e →
      s.rank ≤ d.rank ∧ d.rank < e.rank) ∧
    (∀ (s e d : Ymd), s.realDate → d.realDate →
      (d ∈ enumerateDates s e ↔ (s.rank ≤ d.rank ∧ d.rank < e.rank))) ∧
    (∀ (s e d : Ymd), s.realDate → d ∈ enumerateDates s e → d.realDate) ∧
    enumerateDates ⟨2025, 3, 10⟩ ⟨2025, 3, 13⟩ =
      [⟨2025, 3, 10⟩, ⟨2025, 3, 11⟩, ⟨2025, 3, 12⟩] ∧
    (quoteRange ⟨2025, 3, 10⟩ ⟨2025, 3, 13⟩ 50000).days = 3 ∧
    ((holdsPOST emptyDB 0 ⟨2025, 3, 10⟩ ⟨2025, 3, 13⟩ "a@b.c" 15 50000
        defaultPolicy "bk1").1.bookedDays.map (fun u => u.day)) =
      [⟨2025, 3, 10⟩, ⟨2025, 3, 11⟩, ⟨2025, 3, 12⟩] := by
  refine ⟨fun s e d hv h => enumAux_mem (e.rank - s.rank) s e d hv h,
    ?_, ?_, ?_, ?_, ?_⟩
  · intro s e d hs hd
    constructor
    · exact fun h =>
        enumAux_mem (e.rank - s.rank) s e d (Ymd.realDate_valid s hs) h
    · intro hbound
      exact enumAux_complete (e.rank - s.rank) s e d hs hd hbound.1 hbound.2
        (le_refl _)
  · exact fun s e d hs h => enumAux_real (e.rank - s.rank) s e d hs h
  · decide
  · decide
  · decide

/-- C7 witness: the characterization applied at 2025-03-11 inside the
range 2025-03-10 to 2025-03-13 — the bounds hold and, conversely, the
bounds put the date in the enumeration. -/
theorem enumerateDates_half_open_witness :
    ((⟨2025, 3, 10⟩ : Ymd).rank ≤ (⟨2025, 3, 11⟩ : Ymd).rank ∧
      (⟨2025, 3, 11⟩ : Ymd).rank < (⟨2025, 3, 13⟩ : Ymd).rank) ∧
    (⟨2025, 3, 11⟩ : Ymd) ∈ enumerateDates ⟨2025, 3, 10⟩ ⟨2025, 3, 13⟩ :=
  ⟨enumerateDates_half_open_and_reserves_exactly.1
    ⟨2025, 3, 10⟩ ⟨2025, 3, 13⟩ ⟨2025, 3, 11⟩ (by decide) (by decide),
   (enumerateDates_half_open_and_reserves_exactly.2.1
    ⟨2025, 3, 10⟩ ⟨2025, 3, 13⟩ ⟨2025, 3, 11⟩ (by decide) (by decide)).mpr
    (by decide)⟩

/-- C9: an inbound payment webhook without a signature, or whose signature
verification fails, is rejected before any handler runs: the state (all
tables and the job queue) is unchanged. -/
theorem webhook_unverified_no_state_change (db : DB) (now : Nat)
    (policy : Policy) (hasSecret : Bool) (v : Option StripeEvent) :
    (webhookPOST db now policy false hasSecret v).1 = db ∧
    (webhookPOST db now policy true hasSecret none).1 = db := by
  constructor
  · rfl
  · cases hasSecret <;> rfl

/-- C10: the deposit computed at hold time lies between 0 and the total,
for any nonnegative total and policy value: FIXED deposits are clamped to
the total, and PERCENT deposits are rounded then clamped to the total. -/
theorem computeDeposit_between_zero_and_total (total value : Int)
    (t : DepositType) (ht : 0 ≤ total) (hv : 0 ≤ value) :
    0 ≤ computeDeposit total t value ∧ computeDeposit total t value ≤ total := by
  cases t with
  | FIXED => exact ⟨le_min hv ht, min_le_right _ _⟩
  | PERCENT =>
    have hnum : (0 : Int) ≤ total * value + 50 := by
      have := mul_nonneg ht hv
      linarith
    exact ⟨le_min (Int.ediv_nonneg hnum (by norm_num)) ht, min_le_right _ _⟩

/-- C10 witness: the bound at total 150000 cents with a 10 percent policy. -/
theorem computeDeposit_between_zero_and_total_witness :
    0 ≤ computeDeposit 150000 DepositType.PERCENT 10 ∧
      computeDeposit 150000 DepositType.PERCENT 10 ≤ 150000 :=
  computeDeposit_between_zero_and_total 150000 10 DepositType.PERCENT
    (by norm_num) (by norm_num)

/-- C2: createHold is all-or-nothing.  Any rejected request leaves the
state exactly as it was (the Booking row and partial DayUnits are rolled
back); a blackout inside the range yields BlackoutConflict, and fewer
inserted days than requested yields RangeUnavailable, each returning the
unchanged state. -/
theorem createHold_atomic_rollback :
    (∀ (db : DB) (now : Nat) (s e : Ymd) (email : String) (ttl : Nat)
       (perDay : Int) (policy : Policy) (bid : String) (err : HoldError),
      (holdsPOST db now s e email ttl perDay policy bid).2 = Except.error err →
      (holdsPOST db now s e email ttl perDay policy bid).1 = db) ∧
    (∀ (db : DB) (now : Nat) (s e : Ymd) (email : String) (ttl : Nat)
       (perDay : Int) (policy : Policy) (bid : String),
      enumerateDates s e ≠ [] →
      blackoutIntersects db.blackouts s e = true →
      holdsPOST db now s e email ttl perDay policy bid =
        (db, Except.error HoldError.blackoutConflict)) ∧
    (∀ (db : DB) (now : Nat) (s e : Ymd) (email : String) (ttl : Nat)
       (perDay : Int) (policy : Policy) (bid : String),
      enumerateDates s e ≠ [] →
      blackoutIntersects db.blackouts s e = false →
      (createManySkipDup (db.bookedDays.filter (fun d => !(isExpiredHeld now d)))
          bid (now + ttl * msPerMinute) (enumerateDates s e)).2 ≠
        (enumerateDates s e).length →
      holdsPOST db now s e email ttl perDay policy bid =
        (db, Except.error HoldError.rangeUnavailable)) := by
  refine ⟨?_, ?_, ?_⟩
  · intro db now s e email ttl perDay policy bid err
    simp only [holdsPOST]
    split
    · intro _; rfl
    · split
      · intro _; rfl
      · intro h
        exact absurd h (by simp)
  · intro db now s e email ttl perDay policy bid hne hb
    have h0 : ¬((enumerateDates s e).length = 0) := by
      simpa [List.length_eq_zero] using hne
    simp [holdsPOST, holdsTx, h0, hb]
  · intro db now s e email ttl perDay policy bid hne hb hcount
    have h0 : ¬((enumerateDates s e).length = 0) := by
      simpa [List.length_eq_zero] using hne
    simp [holdsPOST, holdsTx, h0, hb, hcount]

/-- C2 witness: a hold over 2025-03-10..13 against a state whose only
blackout is 2025-03-11 is rejected with BlackoutConflict and the state is
returned unchanged. -/
theorem createHold_atomic_rollback_witness :
    holdsPOST blackoutSampleDB 0 ⟨2025, 3, 10⟩ ⟨2025, 3, 13⟩ "a@b.c" 15 50000
        defaultPolicy "bk1" =
      (blackoutSampleDB, Except.error HoldError.blackoutConflict) :=
  createHold_atomic_rollback.2.1 blackoutSampleDB 0 ⟨2025, 3, 10⟩ ⟨2025, 3, 13⟩
    "a@b.c" 15 50000 defaultPolicy "bk1" (by decide) (by decide)

lemma refundLoop_le (bid : String) (refundable : Int) :
    ∀ (ps : List Payment) (refunded : Int), refunded ≤ refundable →
      (refundLoop bid refundable ps refunded).2 ≤ refundable := by
  intro ps
  induction ps with
  | nil => intro refunded h; simpa [refundLoop] using h
  | cons p rest ih =>
    intro refunded h
    simp only [refundLoop]
    split_ifs with hge
    · simpa using h
    · simp only []
      apply ih
      have hm : min (refundable - refunded) p.amount ≤ refundable - refunded :=
        min_le_left _ _
      linarith

/-- C6: the amount refunded by cancellation never exceeds
max(0, totalSucceededPayments − depositAmount) — the deposit is never
refunded — and on the concrete booking with total 500000, deposit 20000
and a succeeded remainder payment of 480000, the refunded amount is
exactly 480000, not 500000. -/
theorem cancel_refund_bounded_by_refundable :
    (∀ (db : DB) (now : Nat) (bid : String) (policy : Policy)
       (booking : Booking) (r : Int),
      db.bookings.find? (fun b => decide (b.id = bid)) = some booking →
      (cancelPOST db now bid policy).2 = Except.ok r →
      r ≤ max 0 (sumAmounts ((db.payments.filter
            (fun p => decide (p.bookingId = bid))).filter
            (fun p => decide (p.status = PayStatus.succeeded))) -
          booking.depositAmount)) ∧
    (cancelPOST cancelSampleDB 0 "bk1" defaultPolicy).2 = Except.ok 480000 := by
  constructor
  · intro db now bid policy booking r hfind hok
    simp only [cancelPOST] at hok
    rw [hfind] at hok
    dsimp only at hok
    by_cases hst : booking.status ≠ BookingStatus.CONFIRMED
    · simp [hst] at hok
    · rw [if_neg hst] at hok
      by_cases hw : now > booking.startDate.rank * msPerDay -
          policy.cancelCutoffHours * msPerHour
      · rw [if_pos hw] at hok
        simp at hok
      · rw [if_neg hw] at hok
        simp only [Except.ok.injEq] at hok
        subst hok
        by_cases hpos : max 0 (sumAmounts (((db.payments.filter
              (fun p => decide (p.bookingId = bid))).filter
              (fun p => decide (p.status = PayStatus.succeeded)))) -
            booking.depositAmount) > 0
        · rw [if_pos hpos]
          exact refundLoop_le bid _ _ 0 (le_of_lt hpos)
        · rw [if_neg hpos]
          exact le_max_left _ _
  · rfl

/-- C6 witness: the refund bound applied to the concrete cancellation of
the sample confirmed booking. -/
theorem cancel_refund_bounded_witness :
    (480000 : Int) ≤ max 0 (sumAmounts ((cancelSampleDB.payments.filter
        (fun p => decide (p.bookingId = "bk1"))).filter
        (fun p => decide (p.status = PayStatus.succeeded))) -
      confirmedSampleBooking.depositAmount) :=
  cancel_refund_bounded_by_refundable.1 cancelSampleDB 0 "bk1" defaultPolicy
    confirmedSampleBooking 480000 (by rfl)
    cancel_refund_bounded_by_refundable.2

lemma scheduleAfterConfirm_fields (db : DB) (now : Nat) (bid : String)
    (policy : Policy) :
    (scheduleAfterConfirm db now bid policy).bookings = db.bookings ∧
    (scheduleAfterConfirm db now bid policy).bookedDays = db.bookedDays ∧
    (scheduleAfterConfirm db now bid policy).payments = db.payments := by
  unfold scheduleAfterConfirm
  cases hf : db.bookings.find? (fun b => decide (b.id = bid)) with
  | none => exact ⟨rfl, rfl, rfl⟩
  | some b => exact ⟨rfl, rfl, rfl⟩

lemma confirmTx_confirmed_find (db : DB) (bid pi : String) (cust : Option String)
    (b : Booking) (h : db.bookings.find? (fun x => decide (x.id = bid)) = some b) :
    ∃ b2, (confirmTx db bid pi cust).bookings.find?
        (fun x => decide (x.id = bid)) = some b2 ∧
      b2.status = BookingStatus.CONFIRMED := by
  have hb : b.id = bid := by simpa using List.find?_some h
  unfold confirmTx
  rw [h]
  dsimp only
  by_cases hc : b.status = BookingStatus.CONFIRMED
  · rw [if_pos hc]
    exact ⟨b, h, hc⟩
  · rw [if_neg hc]
    rw [List.find?_map]
    have hcomp : ((fun x : Booking => decide (x.id = bid)) ∘ (fun b0 : Booking =>
        if b0.id = bid then
          let cust2 := match cust with
            | some c => some c
            | none => b0.stripeCustomerId
          { b0 with status := BookingStatus.CONFIRMED, stripeCustomerId := cust2 }
        else b0)) = (fun x : Booking => decide (x.id = bid)) := by
      funext x
      by_cases hx : x.id = bid
      · simp [hx]
      · simp [hx]
    rw [hcomp, h]
    refine ⟨_, rfl, ?_⟩
    simp [hb]

/-- C4: a stale expireHold task is a no-op once confirm has committed.
If the booking is not HELD, or any owned DayUnit still has a future
holdExpiry, handleHoldExpire changes nothing; in particular running it
any time after checkoutCompleted leaves the state it found untouched. -/
theorem expireHold_noop_after_confirm :
    (∀ (db : DB) (now : Nat) (bid : String) (b : Booking),
      db.bookings.find? (fun x => decide (x.id = bid)) = some b →
      b.status ≠ BookingStatus.HELD →
      handleHoldExpire db now bid = db) ∧
    (∀ (db : DB) (now : Nat) (bid : String) (b : Booking) (d : BookedDay)
       (t : Nat),
      db.bookings.find? (fun x => decide (x.id = bid)) = some b →
      d ∈ db.bookedDays → d.bookingId = bid → d.status = DayStatus.HELD →
      d.holdExpiresAt = some t → now < t →
      handleHoldExpire db now bid = db) ∧
    (∀ (db : DB) (now now2 : Nat) (bid pi : String) (cust : Option String)
       (policy : Policy) (b : Booking),
      db.bookings.find? (fun x => decide (x.id = bid)) = some b →
      handleHoldExpire (checkoutCompleted db now bid pi cust policy) now2 bid =
        checkoutCompleted db now bid pi cust policy) := by
  have hA : ∀ (db : DB) (now : Nat) (bid : String) (b : Booking),
      db.bookings.find? (fun x => decide (x.id = bid)) = some b →
      b.status ≠ BookingStatus.HELD →
      handleHoldExpire db now bid = db := by
    intro db now bid b hf hs
    unfold handleHoldExpire
    rw [hf]
    dsimp only
    rw [if_pos hs]
  refine ⟨hA, ?_, ?_⟩
  · intro db now bid b d t hf hd hbid hst hexp hlt
    unfold handleHoldExpire
    rw [hf]
    dsimp only
    by_cases hs : b.status ≠ BookingStatus.HELD
    · rw [if_pos hs]
    · rw [if_neg hs]
      have hany : (db.bookedDays.filter
          (fun d0 => decide (d0.bookingId = bid))).any
          (fun d0 => decide (d0.status = DayStatus.HELD) &&
            (match d0.holdExpiresAt with
             | some t0 => decide (now < t0)
             | none => false)) = true := by
        rw [List.any_eq_true]
        refine ⟨d, List.mem_filter.mpr ⟨hd, by simp [hbid]⟩, ?_⟩
        simp [hst, hexp, hlt]
      rw [if_pos hany]
  · intro db now now2 bid pi cust policy b hf
    obtain ⟨b2, hf2, hs2⟩ := confirmTx_confirmed_find db bid pi cust b hf
    have hfields := scheduleAfterConfirm_fields (confirmTx db bid pi cust)
      now bid policy
    have hf3 : (checkoutCompleted db now bid pi cust policy).bookings.find?
        (fun x => decide (x.id = bid)) = some b2 := by
      unfold checkoutCompleted
      rw [hfields.1]
      exact hf2
    exact hA _ now2 bid b2 hf3 (by simp [hs2])

/-- C4 witness: confirming the sample held booking and then running the
stale expireHold task leaves the confirmed state untouched. -/
theorem expireHold_noop_after_confirm_witness :
    handleHoldExpire
        (checkoutCompleted heldSampleDB 0 "bk1" "pi_dep" none defaultPolicy)
        1000000000000 "bk1" =
      checkoutCompleted heldSampleDB 0 "bk1" "pi_dep" none defaultPolicy :=
  expireHold_noop_after_confirm.2.2 heldSampleDB 0 1000000000000 "bk1" "pi_dep"
    none defaultPolicy sampleBooking (by rfl)

lemma upsertPayment_fresh (ps : List Payment) (pi : String)
    (upd : Payment → Payment) (created : Payment)
    (h : ∀ p ∈ ps, p.stripePaymentIntentId ≠ pi) :
    upsertPayment ps pi upd created = ps ++ [created] := by
  unfold upsertPayment
  rw [if_neg]
  intro hc
  rw [List.any_eq_true] at hc
  obtain ⟨p, hp, hdec⟩ := hc
  exact h p hp (by simpa using hdec)

lemma enqueue_fresh (jobs : List Job) (j : Job)
    (h : ∀ k ∈ jobs, k.jobId ≠ j.jobId) : enqueue jobs j = jobs ++ [j] := by
  unfold enqueue
  rw [if_neg]
  intro hc
  rw [List.any_eq_true] at hc
  obtain ⟨k, hk, hdec⟩ := hc
  exact h k hk (by simpa using hdec)

lemma countFailedRemainder_le_upsert (ps : List Payment) (pi bid : String)
    (created : Payment) :
    countFailedRemainder ps bid ≤
      countFailedRemainder (upsertPayment ps pi
        (fun p => { p with status := PayStatus.failed }) created) bid := by
  unfold upsertPayment
  split_ifs with h
  · unfold countFailedRemainder
    have hpt : ∀ a : Payment,
        decide (a.bookingId = bid ∧ a.type = PayType.REMAINDER ∧
          a.status = PayStatus.failed) = true →
        decide ((if a.stripePaymentIntentId = pi then
            { a with status := PayStatus.failed } else a).bookingId = bid ∧
          (if a.stripePaymentIntentId = pi then
            { a with status := PayStatus.failed } else a).type =
            PayType.REMAINDER ∧
          (if a.stripePaymentIntentId = pi then
            { a with status := PayStatus.failed } else a).status =
            PayStatus.failed) = true := by
      intro a ha
      by_cases hpi : a.stripePaymentIntentId = pi <;> simp_all
    clear h
    induction ps with
    | nil => simp
    | cons a t ih =>
      dsimp only at ih ⊢
      simp only [List.map_cons, List.countP_cons]
      by_cases hpa : decide (a.bookingId = bid ∧ a.type = PayType.REMAINDER ∧
          a.status = PayStatus.failed) = true
      · have := hpt a hpa
        rw [hpa, this]
        omega
      · have hz : (if decide (a.bookingId = bid ∧ a.type = PayType.REMAINDER ∧
            a.status = PayStatus.failed) = true then 1 else 0) = 0 := by
          simp [hpa]
        rw [hz]
        omega
  · unfold countFailedRemainder
    rw [List.countP_append]
    exact Nat.le_add_right _ _

lemma countFailedRemainder_append_one (ps : List Payment) (bid pi : String)
    (amount : Int) :
    countFailedRemainder (ps ++ [failedPaymentRec bid pi amount]) bid =
      countFailedRemainder ps bid + 1 := by
  unfold countFailedRemainder
  rw [List.countP_append]
  simp [failedPaymentRec]

lemma paymentFailed_eq_of_count (db : DB) (bid pi : String) (amount : Int)
    (n : Nat)
    (hfresh : ∀ p ∈ db.payments, p.stripePaymentIntentId ≠ pi)
    (hcnt : countFailedRemainder db.payments bid = n) :
    paymentFailed db bid pi amount PayType.REMAINDER =
      (if n + 1 < 3 then
        { db with
          payments := db.payments ++ [failedPaymentRec bid pi amount],
          jobs := enqueue db.jobs (retryJobRec bid (n + 1)) }
      else
        { db with
          payments := db.payments ++ [failedPaymentRec bid pi amount] }) := by
  simp only [paymentFailed]
  rw [upsertPayment_fresh db.payments pi _ _ hfresh]
  dsimp only
  rw [show ({ bookingId := bid, stripePaymentIntentId := pi, amount := amount,
              type := PayType.REMAINDER, status := PayStatus.failed } : Payment) =
      failedPaymentRec bid pi amount from rfl]
  rw [countFailedRemainder_append_one, hcnt]
  rfl

/-- C5: the remainder-charge retry ceiling.  Once a booking has 3 failed
REMAINDER payments no further retry is scheduled; three consecutive
paymentFailed(REMAINDER) events schedule exactly two retries — the first
with a 6 hour backoff, the second with 24 hours, each keyed uniquely per
attempt — and the third schedules nothing. -/
theorem remainder_retry_ceiling :
    (∀ (db : DB) (bid pi : String) (amount : Int),
      3 ≤ countFailedRemainder db.payments bid →
      (paymentFailed db bid pi amount PayType.REMAINDER).jobs = db.jobs) ∧
    (∀ (db : DB) (bid pi1 pi2 pi3 : String) (a1 a2 a3 : Int),
      countFailedRemainder db.payments bid = 0 →
      (∀ p ∈ db.payments, p.stripePaymentIntentId ≠ pi1 ∧
        p.stripePaymentIntentId ≠ pi2 ∧ p.stripePaymentIntentId ≠ pi3) →
      pi1 ≠ pi2 → pi1 ≠ pi3 → pi2 ≠ pi3 →
      (∀ j ∈ db.jobs, j.jobId ≠ ("remainder-charge-retry1", bid) ∧
        j.jobId ≠ ("remainder-charge-retry2", bid)) →
      (paymentFailed db bid pi1 a1 PayType.REMAINDER).jobs =
          db.jobs ++ [retryJobRec bid 1] ∧
      (paymentFailed (paymentFailed db bid pi1 a1 PayType.REMAINDER) bid pi2
          a2 PayType.REMAINDER).jobs =
          db.jobs ++ [retryJobRec bid 1] ++ [retryJobRec bid 2] ∧
      (paymentFailed (paymentFailed (paymentFailed db bid pi1 a1
          PayType.REMAINDER) bid pi2 a2 PayType.REMAINDER) bid pi3 a3
          PayType.REMAINDER).jobs =
          db.jobs ++ [retryJobRec bid 1] ++ [retryJobRec bid 2]) ∧
    (∀ bid : String, (retryJobRec bid 1).delayMs = 6 * msPerHour ∧
      (retryJobRec bid 2).delayMs = 24 * msPerHour) := by
  refine ⟨?_, ?_, fun bid => ⟨rfl, rfl⟩⟩
  · intro db bid pi amount h3
    simp only [paymentFailed]
    rw [show ({ bookingId := bid, stripePaymentIntentId := pi, amount := amount,
                type := PayType.REMAINDER, status := PayStatus.failed } :
        Payment) = failedPaymentRec bid pi amount from rfl]
    have hge := countFailedRemainder_le_upsert db.payments pi bid
      (failedPaymentRec bid pi amount)
    have hnlt : ¬(countFailedRemainder (upsertPayment db.payments pi
        (fun p => { p with status := PayStatus.failed })
        (failedPaymentRec bid pi amount)) bid < 3) := by omega
    rw [if_neg hnlt]
  · intro db bid pi1 pi2 pi3 a1 a2 a3 h0 hfresh hd12 hd13 hd23 hjobs
    have hstr1 : ("remainder-charge-retry" ++ toString (1 : Nat)) =
        "remainder-charge-retry1" := by decide
    have hstr2 : ("remainder-charge-retry" ++ toString (2 : Nat)) =
        "remainder-charge-retry2" := by decide
    have hf1 : ∀ p ∈ db.payments, p.stripePaymentIntentId ≠ pi1 :=
      fun p hp => (hfresh p hp).1
    have e1 := paymentFailed_eq_of_count db bid pi1 a1 0 hf1 h0
    rw [if_pos (by norm_num)] at e1
    norm_num at e1
    have henq1 : enqueue db.jobs (retryJobRec bid 1) =
        db.jobs ++ [retryJobRec bid 1] := by
      apply enqueue_fresh
      intro k hk heq
      apply (hjobs k hk).1
      rw [heq]
      show ("remainder-charge-retry" ++ toString (1 : Nat), bid) =
        ("remainder-charge-retry1", bid)
      rw [hstr1]
    have E1 : paymentFailed db bid pi1 a1 PayType.REMAINDER =
        { db with
          payments := db.payments ++ [failedPaymentRec bid pi1 a1],
          jobs := db.jobs ++ [retryJobRec bid 1] } := by
      rw [e1, henq1]
    have hcnt1 : countFailedRemainder
        (db.payments ++ [failedPaymentRec bid pi1 a1]) bid = 1 := by
      rw [countFailedRemainder_append_one, h0]
    have hf2 : ∀ p ∈ db.payments ++ [failedPaymentRec bid pi1 a1],
        p.stripePaymentIntentId ≠ pi2 := by
      intro p hp
      rcases List.mem_append.mp hp with hp1 | hp1
      · exact (hfresh p hp1).2.1
      · have hpe : p = failedPaymentRec bid pi1 a1 := by simpa using hp1
        rw [hpe]
        exact hd12
    have e2 := paymentFailed_eq_of_count
      { db with
        payments := db.payments ++ [failedPaymentRec bid pi1 a1],
        jobs := db.jobs ++ [retryJobRec bid 1] } bid pi2 a2 1 hf2 hcnt1
    rw [if_pos (by norm_num)] at e2
    norm_num at e2
    have henq2 : enqueue (db.jobs ++ [retryJobRec bid 1]) (retryJobRec bid 2) =
        db.jobs ++ [retryJobRec bid 1] ++ [retryJobRec bid 2] := by
      apply enqueue_fresh
      intro k hk heq
      rcases List.mem_append.mp hk with hk1 | hk1
      · apply (hjobs k hk1).2
        rw [heq]
        show ("remainder-charge-retry" ++ toString (2 : Nat), bid) =
          ("remainder-charge-retry2", bid)
        rw [hstr2]
      · have hk2 : k = retryJobRec bid 1 := by simpa using hk1
        rw [hk2] at heq
        have hfst : ("remainder-charge-retry" ++ toString (1 : Nat)) =
            ("remainder-charge-retry" ++ toString (2 : Nat)) :=
          congrArg Prod.fst heq
        rw [hstr1, hstr2] at hfst
        exact absurd hfst (by decide)
    have E2 : paymentFailed (paymentFailed db bid pi1 a1 PayType.REMAINDER)
        bid pi2 a2 PayType.REMAINDER =
        { db with
          payments := db.payments ++ [failedPaymentRec bid pi1 a1] ++ [failedPaymentRec bid pi2 a2],
          jobs := db.jobs ++ [retryJobRec bid 1] ++ [retryJobRec bid 2] } := by
      rw [E1, e2, henq2]
      simp
    have hcnt2 : countFailedRemainder (db.payments ++
        [failedPaymentRec bid pi1 a1] ++ [failedPaymentRec bid pi2 a2])
        bid = 2 := by
      rw [countFailedRemainder_append_one, hcnt1]
    have hf3 : ∀ p ∈ db.payments ++ [failedPaymentRec bid pi1 a1] ++
        [failedPaymentRec bid pi2 a2], p.stripePaymentIntentId ≠ pi3 := by
      intro p hp
      rcases List.mem_append.mp hp with hp1 | hp1
      · rcases List.mem_append.mp hp1 with hp2 | hp2
        · exact (hfresh p hp2).2.2
        · have hpe : p = failedPaymentRec bid pi1 a1 := by simpa using hp2
          rw [hpe]
          exact hd13
      · have hpe : p = failedPaymentRec bid pi2 a2 := by simpa using hp1
        rw [hpe]
        exact hd23
    have e3 := paymentFailed_eq_of_count
      { db with
        payments := db.payments ++ [failedPaymentRec bid pi1 a1] ++ [failedPaymentRec bid pi2 a2],
        jobs := db.jobs ++ [retryJobRec bid 1] ++ [retryJobRec bid 2] }
      bid pi3 a3 2 hf3 hcnt2
    rw [if_neg (by norm_num)] at e3
    dsimp only at e3
    have E3 : paymentFailed (paymentFailed (paymentFailed db bid pi1 a1
        PayType.REMAINDER) bid pi2 a2 PayType.REMAINDER) bid pi3 a3
        PayType.REMAINDER =
        { db with
          payments := db.payments ++ [failedPaymentRec bid pi1 a1] ++ [failedPaymentRec bid pi2 a2] ++ [failedPaymentRec bid pi3 a3],
          jobs := db.jobs ++ [retryJobRec bid 1] ++ [retryJobRec bid 2] } := by
      rw [E2, e3]
    refine ⟨?_, ?_, ?_⟩
    · rw [E1]
    · rw [E2]
    · rw [E3]

/-- C5 witness: starting from the empty state, the retry-ceiling theorem
applied to three concrete distinct payment intents. -/
theorem remainder_retry_ceiling_witness :
    (paymentFailed (paymentFailed (paymentFailed emptyDB "bk1" "pi_f1" 480000
        PayType.REMAINDER) "bk1" "pi_f2" 480000 PayType.REMAINDER) "bk1"
        "pi_f3" 480000 PayType.REMAINDER).jobs =
      emptyDB.jobs ++ [retryJobRec "bk1" 1] ++ [retryJobRec "bk1" 2] :=
  (remainder_retry_ceiling.2.1 emptyDB "bk1" "pi_f1" "pi_f2" "pi_f3"
    480000 480000 480000 (by rfl) (by simp [emptyDB]) (by decide) (by decide)
    (by decide) (by simp [emptyDB])).2.2

lemma enqueue_mem (jobs : List Job) (j : Job) :
    (enqueue jobs j).any (fun k => decide (k.jobId = j.jobId)) = true := by
  unfold enqueue
  split_ifs with h
  · exact h
  · rw [List.any_eq_true]
    exact ⟨j, by simp, by simp⟩

lemma enqueue_pres_any (jobs : List Job) (j : Job) (p : Job → Bool)
    (h : jobs.any p = true) : (enqueue jobs j).any p = true := by
  unfold enqueue
  split_ifs with hc
  · exact h
  · rw [List.any_append, h]
    rfl

lemma enqueue_idem (jobs : List Job) (j : Job)
    (h : jobs.any (fun k => decide (k.jobId = j.jobId)) = true) :
    enqueue jobs j = jobs := by
  unfold enqueue
  rw [if_pos h]

lemma upsertPayment_id (ps : List Payment) (pi : String)
    (upd : Payment → Payment) (created : Payment)
    (hpresent : ps.any (fun p => decide (p.stripePaymentIntentId = pi)) = true)
    (hid : ∀ p ∈ ps, p.stripePaymentIntentId = pi → upd p = p) :
    upsertPayment ps pi upd created = ps := by
  unfold upsertPayment
  rw [if_pos hpresent]
  have hpt : ∀ p ∈ ps,
      (if p.stripePaymentIntentId = pi then upd p else p) = p := by
    intro p hp
    split_ifs with h
    · exact hid p hp h
    · rfl
  calc ps.map (fun p => if p.stripePaymentIntentId = pi then upd p else p)
      = ps.map id := List.map_congr_left hpt
    _ = ps := List.map_id ps

lemma scheduleAfterConfirm_noop_of_present (db : DB) (now : Nat) (bid : String)
    (policy : Policy)
    (hc : db.jobs.any (fun k =>
      decide (k.jobId = ("remainder-charge", bid))) = true)
    (h14 : db.jobs.any (fun k =>
      decide (k.jobId = ("reminder-" ++ toString (14 : Nat) ++ "d", bid))) = true)
    (h7 : db.jobs.any (fun k =>
      decide (k.jobId = ("reminder-" ++ toString (7 : Nat) ++ "d", bid))) = true)
    (h2 : db.jobs.any (fun k =>
      decide (k.jobId = ("reminder-" ++ toString (2 : Nat) ++ "d", bid))) = true)
    (h1 : db.jobs.any (fun k =>
      decide (k.jobId = ("reminder-" ++ toString (1 : Nat) ++ "d", bid))) = true) :
    scheduleAfterConfirm db now bid policy = db := by
  unfold scheduleAfterConfirm
  cases hf : db.bookings.find? (fun b => decide (b.id = bid)) with
  | none => rfl
  | some b =>
    dsimp only
    simp only [List.foldl_cons, List.foldl_nil]
    rw [enqueue_idem db.jobs _ hc]
    rw [enqueue_idem db.jobs _ h14]
    rw [enqueue_idem db.jobs _ h7]
    rw [enqueue_idem db.jobs _ h2]
    rw [enqueue_idem db.jobs _ h1]

lemma scheduleAfterConfirm_present (db : DB) (now : Nat) (bid : String)
    (policy : Policy) (b : Booking)
    (hf : db.bookings.find? (fun x => decide (x.id = bid)) = some b) :
    (scheduleAfterConfirm db now bid policy).jobs.any (fun k =>
      decide (k.jobId = ("remainder-charge", bid))) = true ∧
    (scheduleAfterConfirm db now bid policy).jobs.any (fun k =>
      decide (k.jobId = ("reminder-" ++ toString (14 : Nat) ++ "d", bid))) = true ∧
    (scheduleAfterConfirm db now bid policy).jobs.any (fun k =>
      decide (k.jobId = ("reminder-" ++ toString (7 : Nat) ++ "d", bid))) = true ∧
    (scheduleAfterConfirm db now bid policy).jobs.any (fun k =>
      decide (k.jobId = ("reminder-" ++ toString (2 : Nat) ++ "d", bid))) = true ∧
    (scheduleAfterConfirm db now bid policy).jobs.any (fun k =>
      decide (k.jobId = ("reminder-" ++ toString (1 : Nat) ++ "d", bid))) = true := by
  unfold scheduleAfterConfirm
  rw [hf]
  dsimp only
  simp only [List.foldl_cons, List.foldl_nil]
  refine ⟨?_, ?_, ?_, ?_, ?_⟩
  · apply enqueue_pres_any
    apply enqueue_pres_any
    apply enqueue_pres_any
    apply enqueue_pres_any
    exact enqueue_mem db.jobs _
  · apply enqueue_pres_any
    apply enqueue_pres_any
    apply enqueue_pres_any
    exact enqueue_mem _ _
  · apply enqueue_pres_any
    apply enqueue_pres_any
    exact enqueue_mem _ _
  · apply enqueue_pres_any
    exact enqueue_mem _ _
  · exact enqueue_mem _ _

lemma confirmTx_payments_fresh (db : DB) (bid pi : String)
    (cust : Option String) (b : Booking)
    (hf : db.bookings.find? (fun x => decide (x.id = bid)) = some b)
    (hfresh : ∀ p ∈ db.payments, p.stripePaymentIntentId ≠ pi) :
    (confirmTx db bid pi cust).payments =
      db.payments ++ [depositPaymentRec bid pi b.depositAmount] := by
  unfold confirmTx
  rw [hf]
  dsimp only
  rw [upsertPayment_fresh db.payments pi _ _ hfresh]
  split_ifs with hc
  · rfl
  · rfl

lemma confirmTx_noop (db : DB) (bid pi : String) (cust : Option String)
    (b : Booking)
    (hf : db.bookings.find? (fun x => decide (x.id = bid)) = some b)
    (hs : b.status = BookingStatus.CONFIRMED)
    (hpresent : db.payments.any
      (fun p => decide (p.stripePaymentIntentId = pi)) = true)
    (hsucc : ∀ p ∈ db.payments, p.stripePaymentIntentId = pi →
      p.status = PayStatus.succeeded) :
    confirmTx db bid pi cust = db := by
  unfold confirmTx
  rw [hf]
  dsimp only
  have hid : ∀ p ∈ db.payments, p.stripePaymentIntentId = pi →
      ({ p with status := PayStatus.succeeded } : Payment) = p := by
    intro p hp hpi
    have hst := hsucc p hp hpi
    cases p
    simp_all
  rw [upsertPayment_id db.payments pi _ _ hpresent hid]
  rw [if_pos hs]

/-- C3: the checkout.session.completed handler is idempotent.  A second
delivery with the same depositPaymentRef changes nothing — the whole
state, including the scheduled remainder-charge and reminder jobs, is
identical — and exactly one PaymentRecord keyed by that payment intent
exists after the first delivery. -/
theorem confirm_idempotent :
    ∀ (db : DB) (now1 now2 : Nat) (bid pi : String) (cust cust2 : Option String)
      (policy policy2 : Policy) (b : Booking),
      db.bookings.find? (fun x => decide (x.id = bid)) = some b →
      db.payments.countP (fun p => decide (p.stripePaymentIntentId = pi)) = 0 →
      checkoutCompleted (checkoutCompleted db now1 bid pi cust policy) now2 bid
          pi cust2 policy2 =
        checkoutCompleted db now1 bid pi cust policy ∧
      (checkoutCompleted db now1 bid pi cust policy).payments.countP
          (fun p => decide (p.stripePaymentIntentId = pi)) = 1 := by
  intro db now1 now2 bid pi cust cust2 policy policy2 b hf h0
  have hfresh : ∀ p ∈ db.payments, p.stripePaymentIntentId ≠ pi := by
    intro p hp
    have hnp := (List.countP_eq_zero.mp h0) p hp
    simpa using hnp
  obtain ⟨b2, hf1, hs1⟩ := confirmTx_confirmed_find db bid pi cust b hf
  have hpay1 : (confirmTx db bid pi cust).payments =
      db.payments ++ [depositPaymentRec bid pi b.depositAmount] :=
    confirmTx_payments_fresh db bid pi cust b hf hfresh
  have hSpay : (checkoutCompleted db now1 bid pi cust policy).payments =
      db.payments ++ [depositPaymentRec bid pi b.depositAmount] := by
    unfold checkoutCompleted
    rw [(scheduleAfterConfirm_fields _ _ _ _).2.2, hpay1]
  have hSfind : (checkoutCompleted db now1 bid pi cust policy).bookings.find?
      (fun x => decide (x.id = bid)) = some b2 := by
    unfold checkoutCompleted
    rw [(scheduleAfterConfirm_fields _ _ _ _).1]
    exact hf1
  have hcount1 : (checkoutCompleted db now1 bid pi cust policy).payments.countP
      (fun p => decide (p.stripePaymentIntentId = pi)) = 1 := by
    rw [hSpay, List.countP_append, h0]
    simp [depositPaymentRec]
  have hpresent : (checkoutCompleted db now1 bid pi cust policy).payments.any
      (fun p => decide (p.stripePaymentIntentId = pi)) = true := by
    rw [hSpay, List.any_append]
    simp [depositPaymentRec]
  have hsucc : ∀ p ∈ (checkoutCompleted db now1 bid pi cust policy).payments,
      p.stripePaymentIntentId = pi → p.status = PayStatus.succeeded := by
    rw [hSpay]
    intro p hp hpi
    rcases List.mem_append.mp hp with hmem | hmem
    · exact absurd hpi (hfresh p hmem)
    · have hpe : p = depositPaymentRec bid pi b.depositAmount := by
        simpa using hmem
      rw [hpe]
      rfl
  have htx2 : confirmTx (checkoutCompleted db now1 bid pi cust policy) bid pi
      cust2 = checkoutCompleted db now1 bid pi cust policy :=
    confirmTx_noop _ bid pi cust2 b2 hSfind hs1 hpresent hsucc
  have hjobs := scheduleAfterConfirm_present (confirmTx db bid pi cust) now1
    bid policy b2 hf1
  have hsch2 : scheduleAfterConfirm (checkoutCompleted db now1 bid pi cust
      policy) now2 bid policy2 = checkoutCompleted db now1 bid pi cust policy :=
    scheduleAfterConfirm_noop_of_present _ now2 bid policy2 hjobs.1 hjobs.2.1
      hjobs.2.2.1 hjobs.2.2.2.1 hjobs.2.2.2.2
  constructor
  · show checkoutCompleted (checkoutCompleted db now1 bid pi cust policy) now2
      bid pi cust2 policy2 = checkoutCompleted db now1 bid pi cust policy
    conv_lhs => rw [checkoutCompleted]
    rw [htx2, hsch2]
  · exact hcount1

/-- C3 witness: confirming the sample held booking twice with the same
payment intent changes nothing the second time and leaves exactly one
payment record for that intent. -/
theorem confirm_idempotent_witness :
    checkoutCompleted (checkoutCompleted heldSampleDB 0 "bk1" "pi_dep" none
        defaultPolicy) 500 "bk1" "pi_dep" none defaultPolicy =
      checkoutCompleted heldSampleDB 0 "bk1" "pi_dep" none defaultPolicy ∧
    (checkoutCompleted heldSampleDB 0 "bk1" "pi_dep" none
        defaultPolicy).payments.countP
      (fun p => decide (p.stripePaymentIntentId = "pi_dep")) = 1 :=
  confirm_idempotent heldSampleDB 0 500 "bk1" "pi_dep" none none defaultPolicy
    defaultPolicy sampleBooking (by rfl) (by rfl)

lemma holdActive_eq_true (now : Nat) (o : Option Nat) :
    ((match o with | some t => decide (now < t) | none => false) = true) ↔
      ∃ t, o = some t ∧ now < t := by
  cases o <;> simp

lemma isUnavailableDayUnit_eq_true (now : Nat) (u : BookedDay) :
    isUnavailableDayUnit now u = true ↔
      (u.status = DayStatus.BOOKED ∨ (u.status = DayStatus.HELD ∧
        ∃ t, u.holdExpiresAt = some t ∧ now < t)) := by
  unfold isUnavailableDayUnit
  rw [Bool.or_eq_true, Bool.and_eq_true, holdActive_eq_true]
  simp

/-- C8: the availability query returns exactly the union, restricted to
the queried month or range, of the BOOKED days, the HELD days whose
holdExpiry is strictly in the future, and the blackout days; a HELD day
whose expiry has passed is therefore reported available, and the query
functions are pure reads of the state. -/
theorem availability_exactly_union :
    (∀ (db : DB) (now year month : Nat) (d : Ymd),
      d ∈ availabilityGET db now year month ↔
        ((∃ u ∈ db.bookedDays, u.day = d ∧
            ((monthBounds year month).1.rank ≤ d.rank ∧
              d.rank < (monthBounds year month).2.rank) ∧
            (u.status = DayStatus.BOOKED ∨ (u.status = DayStatus.HELD ∧
              ∃ t, u.holdExpiresAt = some t ∧ now < t))) ∨
          (d ∈ db.blackouts ∧ (monthBounds year month).1.rank ≤ d.rank ∧
            d.rank < (monthBounds year month).2.rank))) ∧
    (∀ (db : DB) (now : Nat) (s e : Ymd),
      (availabilityPOST db now s e).1 = true ↔
        ((∀ u ∈ db.bookedDays, ¬(s.rank ≤ u.day.rank ∧ u.day.rank < e.rank ∧
            (u.status = DayStatus.BOOKED ∨ (u.status = DayStatus.HELD ∧
              ∃ t, u.holdExpiresAt = some t ∧ now < t)))) ∧
          (∀ b ∈ db.blackouts, ¬(s.rank ≤ b.rank ∧ b.rank < e.rank)))) := by
  constructor
  · intro db now year month d
    unfold availabilityGET
    rw [List.mem_append, List.mem_map]
    constructor
    · rintro (⟨u, hu, hday⟩ | hb)
      · rw [List.mem_filter] at hu
        obtain ⟨hu1, hstat⟩ := hu
        rw [List.mem_filter] at hu1
        obtain ⟨hmem, hbound⟩ := hu1
        rw [decide_eq_true_eq] at hbound
        rw [isUnavailableDayUnit_eq_true] at hstat
        subst hday
        exact Or.inl ⟨u, hmem, rfl, hbound, hstat⟩
      · rw [List.mem_filter, decide_eq_true_eq] at hb
        exact Or.inr ⟨hb.1, hb.2⟩
    · rintro (⟨u, hmem, hday, hbound, hstat⟩ | ⟨hb, hbound⟩)
      · refine Or.inl ⟨u, ?_, hday⟩
        rw [List.mem_filter]
        refine ⟨?_, (isUnavailableDayUnit_eq_true now u).mpr hstat⟩
        rw [List.mem_filter, decide_eq_true_eq]
        rw [hday]
        exact ⟨hmem, hbound⟩
      · refine Or.inr ?_
        rw [List.mem_filter, decide_eq_true_eq]
        exact ⟨hb, hbound⟩
  · intro db now s e
    unfold availabilityPOST
    dsimp only
    split_ifs with hcond
    · constructor
      · intro hfalse
        exact absurd hfalse (by simp)
      · intro hall
        exfalso
        rcases hcond with hlen | hlen
        · obtain ⟨u, hu⟩ := List.exists_mem_of_length_pos hlen
          rw [List.mem_filter] at hu
          obtain ⟨hmem, hpred⟩ := hu
          rw [Bool.and_eq_true, decide_eq_true_eq,
            isUnavailableDayUnit_eq_true] at hpred
          exact absurd ⟨hpred.1.1, hpred.1.2, hpred.2⟩ (hall.1 u hmem)
        · obtain ⟨bday, hb⟩ := List.exists_mem_of_length_pos hlen
          rw [List.mem_filter, decide_eq_true_eq] at hb
          exact absurd hb.2 (hall.2 bday hb.1)
    · constructor
      · intro _
        push_neg at hcond
        obtain ⟨hc1, hc2⟩ := hcond
        have hn1 : db.bookedDays.filter (fun u =>
            decide (s.rank ≤ u.day.rank ∧ u.day.rank < e.rank) &&
              isUnavailableDayUnit now u) = [] := by
          rcases List.length_eq_zero.mp (Nat.le_zero.mp hc1) with h
          exact h
        have hn2 : db.blackouts.filter (fun bday =>
            decide (s.rank ≤ bday.rank ∧ bday.rank < e.rank)) = [] := by
          rcases List.length_eq_zero.mp (Nat.le_zero.mp hc2) with h
          exact h
        constructor
        · intro u hu hcontra
          have := (List.filter_eq_nil_iff.mp hn1) u hu
          rw [Bool.and_eq_true, decide_eq_true_eq,
            isUnavailableDayUnit_eq_true] at this
          exact this ⟨⟨hcontra.1, hcontra.2.1⟩, hcontra.2.2⟩
        · intro bday hb hcontra
          have := (List.filter_eq_nil_iff.mp hn2) bday hb
          rw [decide_eq_true_eq] at this
          exact this hcontra
      · intro _
        rfl

lemma createManySkipDup_count_le (bid : String) (expiry : Nat) :
    ∀ (ds : List Ymd) (days : List BookedDay),
      (createManySkipDup days bid expiry ds).2 ≤ ds.length := by
  intro ds
  induction ds with
  | nil => intro days; simp [createManySkipDup]
  | cons d0 rest ih =>
    intro days
    unfold createManySkipDup
    split_ifs with h0
    · exact Nat.le_trans (ih days) (Nat.le_succ _)
    · have hr := ih (days ++ [heldDayRec bid d0 expiry])
      simpa using Nat.succ_le_succ hr

lemma createManySkipDup_sub (bid : String) (expiry : Nat) :
    ∀ (ds : List Ymd) (days : List BookedDay) (x : BookedDay), x ∈ days →
      x ∈ (createManySkipDup days bid expiry ds).1 := by
  intro ds
  induction ds with
  | nil => intro days x hx; simpa [createManySkipDup] using hx
  | cons d0 rest ih =>
    intro days x hx
    unfold createManySkipDup
    split_ifs with h0
    · exact ih days x hx
    · exact ih (days ++ [heldDayRec bid d0 expiry]) x (by simp [hx])

lemma createManySkipDup_count_lt (bid : String) (expiry : Nat) :
    ∀ (ds : List Ymd) (days : List BookedDay) (d : Ymd), d ∈ ds →
      days.any (fun u => decide (u.day = d)) = true →
      (createManySkipDup days bid expiry ds).2 < ds.length := by
  intro ds
  induction ds with
  | nil => intro days d hd; simp at hd
  | cons d0 rest ih =>
    intro days d hd hpres
    unfold createManySkipDup
    split_ifs with h0
    · have hle := createManySkipDup_count_le bid expiry rest days
      simpa using Nat.lt_succ_of_le hle
    · have hne : d ≠ d0 := by
        intro he
        subst he
        exact absurd hpres (by simpa using h0)
      have hd2 : d ∈ rest := by
        rcases List.mem_cons.mp hd with he | hm
        · exact absurd he hne
        · exact hm
      have hpres2 : ((days ++ [heldDayRec bid d0 expiry]).any
          (fun u => decide (u.day = d))) = true := by
        rw [List.any_append, hpres]
        rfl
      have hlt := ih (days ++ [heldDayRec bid d0 expiry]) d hd2 hpres2
      simpa using Nat.succ_lt_succ hlt

lemma createManySkipDup_all_inserted (bid : String) (expiry : Nat) :
    ∀ (ds : List Ymd) (days : List BookedDay),
      (createManySkipDup days bid expiry ds).2 = ds.length →
      ∀ d ∈ ds, heldDayRec bid d expiry ∈
        (createManySkipDup days bid expiry ds).1 := by
  intro ds
  induction ds with
  | nil => intro days _ d hd; simp at hd
  | cons d0 rest ih =>
    intro days hcount d hd
    rw [createManySkipDup] at hcount ⊢
    split_ifs at hcount ⊢ with h0
    · have hle := createManySkipDup_count_le bid expiry rest days
      simp at hcount
      omega
    · have hcount2 : (createManySkipDup (days ++ [heldDayRec bid d0 expiry])
          bid expiry rest).2 = rest.length := by
        simpa using hcount
      rcases List.mem_cons.mp hd with he | hm
      · subst he
        exact createManySkipDup_sub bid expiry rest
          (days ++ [heldDayRec bid d expiry]) (heldDayRec bid d expiry)
          (by simp)
      · exact ih (days ++ [heldDayRec bid d0 expiry]) hcount2 d hm

lemma createManySkipDup_nodup (bid : String) (expiry : Nat) :
    ∀ (ds : List Ymd) (days : List BookedDay),
      (days.map (fun u => u.day)).Nodup →
      ((createManySkipDup days bid expiry ds).1.map (fun u => u.day)).Nodup := by
  intro ds
  induction ds with
  | nil => intro days h; simpa [createManySkipDup] using h
  | cons d0 rest ih =>
    intro days hnd
    unfold createManySkipDup
    split_ifs with h0
    · exact ih days hnd
    · apply ih
      rw [List.map_append, List.nodup_append]
      refine ⟨hnd, by simp, ?_⟩
      intro x hx
      simp only [heldDayRec, List.map_cons, List.map_nil, List.mem_singleton]
      intro he
      subst he
      rcases List.mem_map.mp hx with ⟨u, hu, hud⟩
      have hany : days.any (fun u => decide (u.day = x)) = true := by
        rw [List.any_eq_true]
        exact ⟨u, hu, by simp [hud]⟩
      exact absurd hany (by simpa using h0)

lemma holdsTx_ok (db : DB) (now : Nat) (s e : Ymd) (email : String)
    (daysList : List Ymd) (hexp : Nat) (perDay : Int) (policy : Policy)
    (bid : String) (db1 : DB)
    (h : holdsTx db now s e email daysList hexp perDay policy bid =
      Except.ok db1) :
    db1.bookedDays = (createManySkipDup (db.bookedDays.filter
      (fun d => !(isExpiredHeld now d))) bid hexp daysList).1 ∧
    (createManySkipDup (db.bookedDays.filter (fun d => !(isExpiredHeld now d)))
      bid hexp daysList).2 = daysList.length ∧
    db1.blackouts = db.blackouts := by
  unfold holdsTx at h
  dsimp only at h
  split at h
  next hb => simp at h
  next hb =>
    split at h
    next hcnt => simp at h
    next hcnt =>
      injection h with h1
      subst h1
      exact ⟨rfl, not_ne_iff.mp hcnt, rfl⟩

lemma holdsPOST_ok (db : DB) (now : Nat) (s e : Ymd) (email : String)
    (ttl : Nat) (perDay : Int) (policy : Policy) (bid : String) (r : String)
    (hok : (holdsPOST db now s e email ttl perDay policy bid).2 =
      Except.ok r) :
    (holdsPOST db now s e email ttl perDay policy bid).1.bookedDays =
      (createManySkipDup (db.bookedDays.filter (fun d =>
        !(isExpiredHeld now d))) bid (now + ttl * msPerMinute)
        (enumerateDates s e)).1 ∧
    (createManySkipDup (db.bookedDays.filter (fun d => !(isExpiredHeld now d)))
      bid (now + ttl * msPerMinute) (enumerateDates s e)).2 =
      (enumerateDates s e).length ∧
    (holdsPOST db now s e email ttl perDay policy bid).1.blackouts =
      db.blackouts := by
  simp only [holdsPOST] at hok ⊢
  by_cases h0 : (enumerateDates s e).length = 0
  · rw [if_pos h0] at hok
    simp at hok
  · rw [if_neg h0] at hok ⊢
    cases htx : holdsTx db now s e email (enumerateDates s e)
        (now + ttl * msPerMinute) perDay policy bid with
    | error err =>
      rw [htx] at hok
      simp at hok
    | ok db1 =>
      dsimp only
      obtain ⟨hbd, hcnt, hbl⟩ := holdsTx_ok db now s e email _ _ perDay
        policy bid db1 htx
      exact ⟨hbd, hcnt, hbl⟩

lemma holdsPOST_reject_range (db : DB) (now : Nat) (s e : Ymd)
    (email : String) (ttl : Nat) (perDay : Int) (policy : Policy)
    (bid : String)
    (hne : enumerateDates s e ≠ [])
    (hb : blackoutIntersects db.blackouts s e = false)
    (hcount : (createManySkipDup (db.bookedDays.filter (fun d =>
      !(isExpiredHeld now d))) bid (now + ttl * msPerMinute)
      (enumerateDates s e)).2 ≠ (enumerateDates s e).length) :
    holdsPOST db now s e email ttl perDay policy bid =
      (db, Except.error HoldError.rangeUnavailable) := by
  have h0 : ¬((enumerateDates s e).length = 0) := by
    simpa [List.length_eq_zero] using hne
  simp [holdsPOST, holdsTx, h0, hb, hcount]

/-- C1: per-date mutual exclusion.  Every operation — createHold, the
confirm handler, and expireHold — preserves the invariant that at most
one BookedDay row exists per calendar date; and when a hold succeeds,
a second hold over an overlapping range issued before the first hold
expires is rejected with RangeUnavailable and changes nothing, because
createHold inserts with skipDuplicates under the uniqueness of `day`
(insert-or-fail, not check-then-insert). -/
theorem per_date_mutual_exclusion :
    (∀ (db : DB) (now : Nat) (s e : Ymd) (email : String) (ttl : Nat)
       (perDay : Int) (policy : Policy) (bid : String),
      daysUnique db →
      daysUnique (holdsPOST db now s e email ttl perDay policy bid).1) ∧
    (∀ (db : DB) (now : Nat) (bid pi : String) (cust : Option String)
       (policy : Policy),
      daysUnique db →
      daysUnique (checkoutCompleted db now bid pi cust policy)) ∧
    (∀ (db : DB) (now : Nat) (bid : String),
      daysUnique db → daysUnique (handleHoldExpire db now bid)) ∧
    (∀ (db : DB) (now1 now2 : Nat) (s1 e1 s2 e2 : Ymd)
       (email1 email2 : String) (ttl1 ttl2 : Nat) (perDay1 perDay2 : Int)
       (policy1 policy2 : Policy) (bid1 bid2 : String) (d : Ymd) (r : String),
      (holdsPOST db now1 s1 e1 email1 ttl1 perDay1 policy1 bid1).2 =
        Except.ok r →
      d ∈ enumerateDates s1 e1 → d ∈ enumerateDates s2 e2 →
      now2 ≤ now1 + ttl1 * msPerMinute →
      blackoutIntersects db.blackouts s2 e2 = false →
      holdsPOST (holdsPOST db now1 s1 e1 email1 ttl1 perDay1 policy1 bid1).1
          now2 s2 e2 email2 ttl2 perDay2 policy2 bid2 =
        ((holdsPOST db now1 s1 e1 email1 ttl1 perDay1 policy1 bid1).1,
          Except.error HoldError.rangeUnavailable)) := by
  refine ⟨?_, ?_, ?_, ?_⟩
  · intro db now s e email ttl perDay policy bid h
    unfold daysUnique at h ⊢
    simp only [holdsPOST]
    by_cases h0 : (enumerateDates s e).length = 0
    · rw [if_pos h0]
      exact h
    · rw [if_neg h0]
      cases htx : holdsTx db now s e email (enumerateDates s e)
          (now + ttl * msPerMinute) perDay policy bid with
      | error err => exact h
      | ok db1 =>
        dsimp only
        obtain ⟨hbd, _, _⟩ := holdsTx_ok db now s e email _ _ perDay
          policy bid db1 htx
        show ((db1.bookedDays).map (fun u => u.day)).Nodup
        rw [hbd]
        apply createManySkipDup_nodup
        exact List.Nodup.sublist
          (List.Sublist.map _ (List.filter_sublist _)) h
  · intro db now bid pi cust policy h
    unfold daysUnique at h ⊢
    unfold checkoutCompleted
    rw [(scheduleAfterConfirm_fields _ _ _ _).2.1]
    unfold confirmTx
    cases hf : db.bookings.find? (fun b => decide (b.id = bid)) with
    | none => exact h
    | some b =>
      dsimp only
      split_ifs with hc
      · exact h
      · show ((db.bookedDays.map (fun d =>
          if d.bookingId = bid ∧ d.status = DayStatus.HELD then
            { d with status := DayStatus.BOOKED, holdExpiresAt := none }
          else d)).map (fun u => u.day)).Nodup
        rw [List.map_map]
        have hcomp : ((fun u : BookedDay => u.day) ∘ (fun d : BookedDay =>
            if d.bookingId = bid ∧ d.status = DayStatus.HELD then
              { d with status := DayStatus.BOOKED, holdExpiresAt := none }
            else d)) = fun u : BookedDay => u.day := by
          funext u
          by_cases hu : u.bookingId = bid ∧ u.status = DayStatus.HELD
          · simp [hu]
          · simp [hu]
        rw [hcomp]
        exact h
  · intro db now bid h
    unfold daysUnique at h ⊢
    unfold handleHoldExpire
    cases hf : db.bookings.find? (fun b => decide (b.id = bid)) with
    | none => exact h
    | some b =>
      dsimp only
      split_ifs with h1 h2
      · exact h
      · exact h
      · exact List.Nodup.sublist
          (List.Sublist.map _ (List.filter_sublist _)) h
  · intro db now1 now2 s1 e1 s2 e2 email1 email2 ttl1 ttl2 perDay1 perDay2
      policy1 policy2 bid1 bid2 d r hok hd1 hd2 hnow2 hb2
    obtain ⟨hbd, hcnt, hbl⟩ := holdsPOST_ok db now1 s1 e1 email1 ttl1 perDay1
      policy1 bid1 r hok
    have hmem : heldDayRec bid1 d (now1 + ttl1 * msPerMinute) ∈
        (holdsPOST db now1 s1 e1 email1 ttl1 perDay1 policy1 bid1).1.bookedDays := by
      rw [hbd]
      exact createManySkipDup_all_inserted bid1 _ _ _ hcnt d hd1
    have hkeep : (!(isExpiredHeld now2
        (heldDayRec bid1 d (now1 + ttl1 * msPerMinute)))) = true := by
      unfold isExpiredHeld heldDayRec
      simp
      omega
    have hpres : (((holdsPOST db now1 s1 e1 email1 ttl1 perDay1 policy1
        bid1).1.bookedDays.filter (fun u => !(isExpiredHeld now2 u))).any
        (fun u => decide (u.day = d))) = true := by
      rw [List.any_eq_true]
      refine ⟨heldDayRec bid1 d (now1 + ttl1 * msPerMinute),
        List.mem_filter.mpr ⟨hmem, hkeep⟩, ?_⟩
      simp [heldDayRec]
    have hlt := createManySkipDup_count_lt bid2 (now2 + ttl2 * msPerMinute)
      (enumerateDates s2 e2)
      ((holdsPOST db now1 s1 e1 email1 ttl1 perDay1 policy1
        bid1).1.bookedDays.filter (fun u => !(isExpiredHeld now2 u)))
      d hd2 hpres
    apply holdsPOST_reject_range
    · exact List.ne_nil_of_mem hd2
    · rw [hbl]
      exact hb2
    · omega

/-- C1 witness: after a successful hold on 2025-03-10..13, an overlapping
hold on 2025-03-12..14 one minute later is rejected with RangeUnavailable
and the state is unchanged. -/
theorem per_date_mutual_exclusion_witness :
    holdsPOST (holdsPOST emptyDB 0 ⟨2025, 3, 10⟩ ⟨2025, 3, 13⟩ "a@b.c" 15
        50000 defaultPolicy "bk1").1 60000 ⟨2025, 3, 12⟩ ⟨2025, 3, 14⟩
        "c@d.e" 15 50000 defaultPolicy "bk2" =
      ((holdsPOST emptyDB 0 ⟨2025, 3, 10⟩ ⟨2025, 3, 13⟩ "a@b.c" 15 50000
        defaultPolicy "bk1").1, Except.error HoldError.rangeUnavailable) :=
  per_date_mutual_exclusion.2.2.2 emptyDB 0 60000 ⟨2025, 3, 10⟩ ⟨2025, 3, 13⟩
    ⟨2025, 3, 12⟩ ⟨2025, 3, 14⟩ "a@b.c" "c@d.e" 15 15 50000 50000
    defaultPolicy defaultPolicy "bk1" "bk2" ⟨2025, 3, 12⟩ "bk1"
    (by rfl) (by decide) (by decide) (by decide) (by rfl)
